import Mathlib

/-!
Verification of the yad concurrent downloader core (src/main.go) against its
specification.  The Go code is shallowly embedded: pure helpers become Lean
functions; the effectful parts (HTTP client, filesystem, rate limiter, context
cancellation, backoff timer) are driven by explicit environments describing the
outcome of each external call, and the filesystem state of the destination file
is threaded through as `Option (List Nat)` (absent, or present with its byte
content).  SHA-256 itself lives in Go's standard library, outside the
repository; it is abstracted as a parameter `H : List Nat → List Nat` mapping
the streamed bytes to a digest — every claim involving the hash depends only on
which byte stream is fed to it, never on the digest function itself.
-/

namespace Yad

/-- Model of Go error values produced in main.go.  `fmt.Errorf` with `%w`
becomes `wrap`; `context` cancellation errors become `ctxErr`;
`"unexpected status code: %d"` keeps its code in `statusErr`. -/
inductive GoErr where
  | ctxErr
  | reqErr (msg : String)
  | netErr (msg : String)
  | statusErr (code : Nat)
  | createErr (msg : String)
  | copyErr (msg : String)
  | wrap (msg : String) (inner : GoErr)
deriving DecidableEq, Repr

/-- One lowercase hexadecimal digit, as produced by `encoding/hex`. -/
def hexDigitChar (n : Nat) : Char :=
  if n < 10 then Char.ofNat (48 + n) else Char.ofNat (87 + n)

/-- Two hex digits of one byte (`encoding/hex` writes high nibble first). -/
def hexByte (b : Nat) : List Char :=
  [hexDigitChar (b / 16 % 16), hexDigitChar (b % 16)]

/-- Model of `hex.EncodeToString` over a byte list. -/
def hexEncode (bs : List Nat) : String :=
  ⟨bs.flatMap hexByte⟩

/-- Model of Go `path.Base` on the character list of the path:
empty path gives ".", a path of only slashes gives "/", otherwise the part
after the last slash once trailing slashes are stripped. -/
def pathBaseChars (cs : List Char) : List Char :=
  if cs = [] then ['.']
  else
    let stripped := (cs.reverse.dropWhile (fun c => c = '/')).reverse
    if stripped = [] then ['/']
    else (stripped.reverse.takeWhile (fun c => c ≠ '/')).reverse

/-- Model of Go `path.Base`. -/
def pathBase (s : String) : String :=
  ⟨pathBaseChars s.data⟩

/-- The characters `sanitizeFilename` replaces (main.go line 143). -/
def badChars : List Char := ['/', '\\', ':', '*', '?', '"', '<', '>', '|']

/-- Character-level action of the `strings.NewReplacer` built in
`sanitizeFilename`: every pattern and replacement is a single character, so
the replacer acts pointwise. -/
def replaceChar (c : Char) : Char :=
  if c ∈ badChars then '_' else c

/-- Model of `sanitizeFilename` (main.go lines 141-150). -/
def sanitizeFilename (s : String) : String :=
  ⟨s.data.map replaceChar⟩

/-- Split a character list at every `'/'` (components of a slash path). -/
def splitSlash : List Char → List (List Char)
  | [] => [[]]
  | c :: rest =>
    if c = '/' then [] :: splitSlash rest
    else
      match splitSlash rest with
      | [] => [[c]]
      | h :: t => (c :: h) :: t

/-- One step of Go `path.Clean`'s component processing: empty and `"."`
components vanish, `".."` pops the last kept component when possible (at the
root it vanishes; with nothing to pop on a relative path it is kept), and any
other component is appended. -/
def cleanStep (rooted : Bool) (stack : List (List Char)) (c : List Char) :
    List (List Char) :=
  if c = [] ∨ c = ['.'] then stack
  else if c = ['.', '.'] then
    match stack.getLast? with
    | some l => if l = ['.', '.'] then stack ++ [c] else stack.dropLast
    | none => if rooted then [] else [c]
  else stack ++ [c]

/-- Whether a path is rooted (starts with a slash). -/
def isRooted : List Char → Bool
  | [] => false
  | c :: _ => decide (c = '/')

/-- Reassemble the processed components of Go `path.Clean`: rejoin with "/",
restore a leading slash for rooted paths, and return "." when nothing is
left. -/
def cleanResult (rooted : Bool) (out : List (List Char)) : List Char :=
  let res := (if rooted then ['/'] else []) ++ List.intercalate ['/'] out
  if res = [] then ['.'] else res

/-- Model of Go `filepath.Clean` (forward-slash separator): process the
components left to right and rejoin. -/
def cleanChars (cs : List Char) : List Char :=
  cleanResult (isRooted cs) ((splitSlash cs).foldl (cleanStep (isRooted cs)) [])

/-- Model of Go `filepath.Clean` on strings. -/
def filepathClean (s : String) : String :=
  ⟨cleanChars s.data⟩

/-- Model of Go `filepath.Join` of two elements: empty elements are skipped,
the rest are joined with "/" and cleaned; all-empty input gives "". -/
def filepathJoin (a b : String) : String :=
  if a = "" ∧ b = "" then ""
  else if a = "" then filepathClean b
  else if b = "" then filepathClean a
  else ⟨cleanChars (a.data ++ '/' :: b.data)⟩

/-- The bytes of a URL string, as `[]byte(url)` feeds them to `sha256.Sum256`
(characters taken as their code points; the claims never depend on multi-byte
encodings). -/
def urlBytes (url : String) : List Nat :=
  url.data.map Char.toNat

/-- The fallback filename `fmt.Sprintf("downloaded_file_%x", sha256.Sum256([]byte(url)))`
(main.go line 74), with the digest function abstracted as `H`. -/
def fallbackName (H : List Nat → List Nat) (url : String) : String :=
  "downloaded_file_" ++ hexEncode (H (urlBytes url))

/-- The destination path computed by `downloadFile` (main.go lines 71-76):
base name of the URL, hash fallback for "", "/" and ".", sanitised, joined
under the output directory. -/
def derivedFilename (H : List Nat → List Nat) (outputDir url : String) : String :=
  let filename := pathBase url
  let filename :=
    if filename = "" ∨ filename = "/" ∨ filename = "." then fallbackName H url
    else filename
  filepathJoin outputDir (sanitizeFilename filename)

/-- Environment of one `tryDownload` attempt: the outcome of each external
call it makes, in program order. -/
structure AttemptEnv where
  /-- `http.NewRequestWithContext` fails with this message, if set. -/
  newReqErr : Option String
  /-- `client.Do`: a transport error, or the response status and body chunks. -/
  doResult : Except String (Nat × List (List Nat))
  /-- `os.Create` fails with this message, if set. -/
  createErr : Option String
  /-- `io.Copy` fails after this many chunks with this message, if set. -/
  copyFailAfter : Option (Nat × String)

/-- Model of `tryDownload` (main.go lines 107-138).  Takes the destination
file's state before the attempt and returns the attempt's outcome (hex digest
or error) together with the destination file's state after the attempt.  On a
mid-copy failure the partially written file is removed (`os.Remove`,
line 133), so the resulting state is `none`. -/
def tryDownload (H : List Nat → List Nat) (env : AttemptEnv)
    (fs : Option (List Nat)) : Except GoErr String × Option (List Nat) :=
  match env.newReqErr with
  | some m => (.error (.reqErr m), fs)
  | none =>
    match env.doResult with
    | .error m => (.error (.netErr m), fs)
    | .ok (status, chunks) =>
      if status ≠ 200 then (.error (.statusErr status), fs)
      else
        match env.createErr with
        | some m => (.error (.createErr m), fs)
        | none =>
          match env.copyFailAfter with
          | some (_, m) => (.error (.copyErr m), none)
          | none => (.ok (hexEncode (H chunks.flatten)), some chunks.flatten)

/-- Model of the `DownloadResult` struct (main.go lines 22-28); Go zero
values: `Error` nil is `none`, `Hash` starts empty, `Success` false. -/
structure DownloadResult where
  url : String
  filename : String
  success : Bool
  error : Option GoErr
  hash : String
deriving DecidableEq, Repr

/-- A fresh `DownloadResult` as `downloadFile` initialises it (URL and
filename set, everything else at its zero value). -/
def zeroResult (url fn : String) : DownloadResult :=
  ⟨url, fn, false, none, ""⟩

/-- Observable events of one `downloadFile` call, in order: each
`limiter.Wait` (with whether it succeeded), each `tryDownload` attempt (with
its 0-based index and whether it succeeded), and each backoff wait (with its
duration in seconds and whether the context fired during it). -/
inductive Ev where
  | acquire (ok : Bool)
  | tryAttempt (i : Nat) (ok : Bool)
  | backoff (secs : Nat) (cancelled : Bool)
deriving DecidableEq, Repr

/-- Environment of one `downloadFile` call: per-attempt outcomes of the rate
limiter, of the HTTP attempt, and of the cancellation check during backoff. -/
structure DLEnv where
  /-- `limiter.Wait(ctx)` before attempt `i` succeeds (false: context cancelled). -/
  limiterOk : Nat → Bool
  /-- External-call outcomes of attempt `i`. -/
  attempt : Nat → AttemptEnv
  /-- the context fires during the backoff after failed attempt `i`. -/
  sleepCancelled : Nat → Bool

/-- The retry loop of `downloadFile` (main.go lines 79-103), starting at
0-based attempt index `i` with `fuel` iterations left (`downloadFile` enters
with fuel `maxRetries+1` at index 0, matching
`for attempt := 0; attempt <= maxRetries; attempt++`).  Returns the result,
the destination file state, and the event trace. -/
def downloadFileLoop (H : List Nat → List Nat) (env : DLEnv) (maxRetries : Nat)
    (url fn : String) :
    Nat → Nat → Option (List Nat) → DownloadResult × Option (List Nat) × List Ev
  | 0, _, fs => (zeroResult url fn, fs, [])
  | fuel + 1, i, fs =>
    if env.limiterOk i = false then
      ({ zeroResult url fn with
          error := some (.wrap "rate limit wait failed" .ctxErr) }, fs,
        [.acquire false])
    else
      match tryDownload H (env.attempt i) fs with
      | (.ok h, fs2) =>
        ({ zeroResult url fn with success := true, hash := h }, fs2,
          [.acquire true, .tryAttempt i true])
      | (.error e, fs2) =>
        if i = maxRetries then
          ({ zeroResult url fn with
              error := some (.wrap
                ("failed after " ++ toString maxRetries ++ " attempts") e) },
            fs2, [.acquire true, .tryAttempt i false])
        else if env.sleepCancelled i then
          ({ zeroResult url fn with error := some .ctxErr }, fs2,
            [.acquire true, .tryAttempt i false, .backoff (i + 1) true])
        else
          let rest := downloadFileLoop H env maxRetries url fn fuel (i + 1) fs2
          (rest.1, rest.2.1,
            [.acquire true, .tryAttempt i false, .backoff (i + 1) false]
              ++ rest.2.2)

/-- Model of `downloadFile` (main.go lines 67-104): derive the destination
path, then run the retry loop from attempt 0. -/
def downloadFile (H : List Nat → List Nat) (env : DLEnv)
    (outputDir : String) (maxRetries : Nat) (url : String)
    (fs : Option (List Nat)) :
    DownloadResult × Option (List Nat) × List Ev :=
  downloadFileLoop H env maxRetries url (derivedFilename H outputDir url)
    (maxRetries + 1) 0 fs

/-- Model of the `Downloader` fields the claims depend on. -/
structure Downloader where
  outputDir : String
  maxRetries : Nat
deriving DecidableEq, Repr

/-- Model of `NewDownloader` (main.go lines 48-64): creating the output
directory may fail, which is reported as a wrapped error. -/
def NewDownloader (mkdirErr : Option String) (outputDir : String)
    (maxRetries : Nat) : Except String Downloader :=
  match mkdirErr with
  | some m => .error ("failed to create output directory: " ++ m)
  | none => .ok ⟨outputDir, maxRetries⟩

/-- Whitespace characters trimmed by `strings.TrimSpace` (ASCII subset; the
scanner has already removed line terminators). -/
def isSpaceChar (c : Char) : Bool :=
  c = ' ' ∨ c = '\t' ∨ c = '\n' ∨ c = '\r'

/-- Model of `strings.TrimSpace`. -/
def trimSpace (s : String) : String :=
  ⟨((s.data.dropWhile isSpaceChar).reverse.dropWhile isSpaceChar).reverse⟩

/-- The URL list `readURLs` builds from the file's lines (main.go
lines 160-166): each line trimmed, blank lines skipped. -/
def parseURLs (lines : List String) : List String :=
  (lines.map trimSpace).filter (fun u => u ≠ "")

/-- Environment of `readURLs`: the file fails to open, or its lines are read
with an optional scanner error afterwards. -/
inductive URLFileEnv where
  | openErr (m : String)
  | content (lines : List String) (scanErr : Option String)

/-- Model of `readURLs` (main.go lines 153-173). -/
def readURLs : URLFileEnv → Except String (List String)
  | .openErr m => .error ("failed to open URL file: " ++ m)
  | .content lines se =>
    match se with
    | some m => .error ("error reading URLs: " ++ m)
    | none => .ok (parseURLs lines)

/-- Environment of one `main` run: the `os.MkdirAll` outcome, the URL file,
and the per-URL download environment and initial destination-file state. -/
structure MainEnv where
  mkdirErr : Option String
  urlFile : URLFileEnv
  dlEnv : String → DLEnv
  fs0 : String → Option (List Nat)

/-- How a modelled `main` run ends: initialisation failure (exit 1), URL-file
read failure (exit 1), empty URL list ("No URLs to download", normal return),
or a completed batch with its results and the printed summary counters. -/
inductive MainOutcome where
  | initFailure (msg : String)
  | readFailure (msg : String)
  | emptyList
  | completed (results : List DownloadResult)
      (successful failed total : Nat)
deriving DecidableEq, Repr

/-- The process exit status of each outcome: `os.Exit(1)` on setup failures,
0 otherwise (the empty-list branch is a plain `return` from `main`). -/
def exitCode : MainOutcome → Nat
  | .initFailure _ => 1
  | .readFailure _ => 1
  | .emptyList => 0
  | .completed _ _ _ _ => 0

/-- Model of `main` (main.go lines 175-254).  The worker goroutines are
sequentialised: each URL contributes exactly one `DownloadResult` (each
goroutine sends exactly one value on the results channel), and the summary
counts results by their `Success` flag exactly as the collection loop does. -/
def runMain (H : List Nat → List Nat) (env : MainEnv) : MainOutcome :=
  match NewDownloader env.mkdirErr "./downloads" 3 with
  | .error m => .initFailure ("Failed to initialize downloader: " ++ m)
  | .ok d =>
    match readURLs env.urlFile with
    | .error m => .readFailure ("Error reading URLs: " ++ m)
    | .ok urls =>
      if urls = [] then .emptyList
      else
        let results := urls.map fun u =>
          (downloadFile H (env.dlEnv u) d.outputDir d.maxRetries u (env.fs0 u)).1
        .completed results (results.countP fun r => r.success)
          (results.countP fun r => !r.success) urls.length

/-- The trace discipline of claim C8: every attempt event is immediately
preceded by a successful limiter acquisition. -/
def acqBeforeTry : List Ev → Bool
  | .acquire true :: .tryAttempt _ _ :: rest => acqBeforeTry rest
  | .tryAttempt _ _ :: _ => false
  | _ :: rest => acqBeforeTry rest
  | [] => true

/-- `p` is a path directly under directory `dir`: the cleaned `dir` followed
by a separator and one ordinary (nonempty, slash-free) component. -/
def isDirectlyUnder (dir p : String) : Prop :=
  ∃ n : List Char, n ≠ [] ∧ '/' ∉ n ∧ p.data = cleanChars dir.data ++ '/' :: n

/-- A concrete stand-in digest function used to instantiate the abstract
hash in counterexamples and witnesses. -/
def H0 : List Nat → List Nat :=
  fun bs => [bs.length % 256, bs.foldl (fun a b => (a + b) % 256) 0]

/-- Whether a trace event is a `tryDownload` attempt. -/
def isTryEv : Ev → Bool
  | .tryAttempt _ _ => true
  | _ => false

/-- Download environment in which every HTTP attempt fails with a network
error and nothing is cancelled. -/
def envAllFail : DLEnv :=
  ⟨fun _ => true, fun _ => ⟨none, .error "boom", none, none⟩, fun _ => false⟩

/-- Like `envAllFail`, but the context fires during every backoff wait. -/
def envSleepCancel : DLEnv :=
  ⟨fun _ => true, fun _ => ⟨none, .error "boom", none, none⟩, fun _ => true⟩

/-- Download environment in which the rate limiter acquisition is cancelled
before the first attempt. -/
def envLimiterCancel : DLEnv :=
  ⟨fun _ => false, fun _ => ⟨none, .error "e", none, none⟩, fun _ => false⟩

/-- A single attempt environment answering 204 No Content. -/
def env204 : AttemptEnv := ⟨none, .ok (204, [[1]]), none, none⟩

/-- A single attempt environment answering 500. -/
def env500 : AttemptEnv := ⟨none, .ok (500, []), none, none⟩

/-- A single attempt environment that succeeds with body chunks `[1,2],[3]`. -/
def envBodyOK : AttemptEnv := ⟨none, .ok (200, [[1, 2], [3]]), none, none⟩

/-- A single attempt environment whose streaming copy fails after one chunk
with a "reset" error. -/
def envCopyFail : AttemptEnv := ⟨none, .ok (200, [[1, 2], [3]]), none, some (1, "reset")⟩

/-- A `main` environment whose single URL is stopped at rate-limiter
acquisition by cancellation. -/
def mainEnvCancel : MainEnv :=
  ⟨none, .content ["http://x/a"] none, fun _ => envLimiterCancel, fun _ => none⟩

/-- A `main` environment whose URL file holds only blank lines. -/
def mainEnvEmpty : MainEnv :=
  ⟨none, .content ["  ", ""] none, fun _ => envLimiterCancel, fun _ => none⟩

/-- A second blank-URL-file `main` environment (one tab-only line). -/
def mainEnvEmpty2 : MainEnv :=
  ⟨none, .content ["\t"] none, fun _ => envLimiterCancel, fun _ => none⟩

/-- A `main` environment in which creating the output directory fails. -/
def mainEnvMkdir : MainEnv :=
  ⟨some "disk full", .content ["http://x/a"] none, fun _ => envLimiterCancel, fun _ => none⟩

/-- The outcome `runMain` records for `mainEnvCancel`'s URL. -/
def rCancel : DownloadResult :=
  ⟨"http://x/a", "downloads/a", false,
    some (.wrap "rate limit wait failed" .ctxErr), ""⟩

end Yad

namespace Yad

/-! ## Helper lemmas -/

theorem replaceChar_idem (c : Char) : replaceChar (replaceChar c) = replaceChar c := by
  by_cases h : c ∈ badChars <;> simp [replaceChar, h]

theorem replaceChar_notin_bad (c : Char) : replaceChar c ∉ badChars := by
  by_cases h : c ∈ badChars <;> simp [replaceChar, h]
  decide

theorem replaceChar_ne_slash (c : Char) : replaceChar c ≠ '/' := by
  intro hc
  exact replaceChar_notin_bad c (hc ▸ (by decide : '/' ∈ badChars))

theorem replaceChar_eq_dot (c : Char) (h : replaceChar c = '.') : c = '.' := by
  by_cases hb : c ∈ badChars
  · simp [replaceChar, hb] at h
  · simpa [replaceChar, hb] using h

theorem acqBeforeTry_loop (H : List Nat → List Nat) (env : DLEnv) (maxR : Nat)
    (url fn : String) :
    ∀ fuel i fs, acqBeforeTry (downloadFileLoop H env maxR url fn fuel i fs).2.2 = true := by
  intro fuel
  induction fuel with
  | zero => intro i fs; rfl
  | succ n ih =>
    intro i fs
    by_cases hl : env.limiterOk i = false
    · simp [downloadFileLoop, hl, acqBeforeTry]
    · rcases htry : tryDownload H (env.attempt i) fs with ⟨res, fs2⟩
      cases res with
      | ok hsh => simp [downloadFileLoop, hl, htry, acqBeforeTry]
      | error e =>
        by_cases hi : i = maxR
        · subst hi
          simp [downloadFileLoop, hl, htry, acqBeforeTry]
        · by_cases hs : env.sleepCancelled i
          · simp [downloadFileLoop, hl, htry, hi, hs, acqBeforeTry]
          · simp [downloadFileLoop, hl, htry, hi, hs, acqBeforeTry, ih]

theorem countP_success_add (l : List DownloadResult) :
    (l.countP fun r => r.success) + (l.countP fun r => !r.success) = l.length := by
  induction l with
  | nil => rfl
  | cons a t ih =>
    cases h : a.success <;> simp [List.countP_cons, h] <;> omega

/-! ## C10: sanitizeFilename is idempotent and is the identity on clean names -/

/-- C10: `sanitizeFilename` is idempotent, and it is the identity on every
string containing none of the characters it replaces. -/
theorem C10_sanitize_idempotent (s : String) :
    sanitizeFilename (sanitizeFilename s) = sanitizeFilename s
    ∧ ((∀ c ∈ s.data, c ∉ badChars) → sanitizeFilename s = s) := by
  constructor
  · apply String.ext
    show (s.data.map replaceChar).map replaceChar = s.data.map replaceChar
    rw [List.map_map]
    exact List.map_congr_left fun c _ => replaceChar_idem c
  · intro h
    apply String.ext
    show s.data.map replaceChar = s.data
    have : s.data.map replaceChar = s.data.map id :=
      List.map_congr_left fun c hc => by simp [replaceChar, h c hc]
    simpa using this

/-- Witness for C10 at the concrete clean name "abc". -/
theorem C10_witness :
    (∀ c ∈ "abc".data, c ∉ badChars)
    ∧ sanitizeFilename (sanitizeFilename "abc") = sanitizeFilename "abc"
    ∧ sanitizeFilename "abc" = "abc" :=
  ⟨by decide, (C10_sanitize_idempotent "abc").1,
    (C10_sanitize_idempotent "abc").2 (by decide)⟩

/-! ## C2: the status check is `!= 200`, not "non-2xx" -/

/-- C2 counterexample: a 204 No Content response is 2xx, yet the attempt
fails with `unexpected status code: 204`, so "fails iff non-2xx" is false. -/
theorem C2_counterexample_status204 :
    (tryDownload H0 env204 none).1 = .error (.statusErr 204)
    ∧ 200 ≤ 204 ∧ 204 < 300 := by
  exact ⟨rfl, by omega, by omega⟩

/-- C2 amended: an attempt that receives a response fails with the
unexpected-status error carrying the code exactly when the status is not 200
(not: not 2xx), and on such a response the destination file state is
untouched (no file is created). -/
theorem C2_status_check_amended (H : List Nat → List Nat) (env : AttemptEnv)
    (fs : Option (List Nat)) (status : Nat) (chunks : List (List Nat))
    (h1 : env.newReqErr = none) (h2 : env.doResult = .ok (status, chunks)) :
    ((tryDownload H env fs).1 = .error (.statusErr status) ↔ status ≠ 200)
    ∧ (status ≠ 200 → tryDownload H env fs = (.error (.statusErr status), fs)) := by
  obtain ⟨nre, dr, ce, cf⟩ := env
  simp only at h1 h2
  subst h1 h2
  by_cases hs : status = 200
  · subst hs
    refine ⟨⟨fun he => ?_, fun hne => absurd rfl hne⟩, fun hne => absurd rfl hne⟩
    cases ce <;> cases cf <;> simp [tryDownload] at he
  · exact ⟨⟨fun _ => hs, fun _ => by simp [tryDownload, hs]⟩,
      fun _ => by simp [tryDownload, hs]⟩

/-- Witness for C2 at a concrete 500 response. -/
theorem C2_witness :
    (tryDownload H0 env500 none).1 = .error (.statusErr 500)
    ∧ tryDownload H0 env500 none = (.error (.statusErr 500), none) := by
  have h := C2_status_check_amended H0 env500 none 500 [] rfl rfl
  exact ⟨h.1.mpr (by decide), h.2 (by decide)⟩

/-! ## C3: a failed streaming copy removes the partial file -/

/-- C3: whenever the destination file was created and the streaming copy then
fails, the partially written destination file is deleted before the error is
returned: the attempt ends with the copy error and the destination absent. -/
theorem C3_partial_file_removed (H : List Nat → List Nat) (env : AttemptEnv)
    (fs : Option (List Nat)) (chunks : List (List Nat)) (k : Nat) (m : String)
    (h1 : env.newReqErr = none) (h2 : env.doResult = .ok (200, chunks))
    (h3 : env.createErr = none) (h4 : env.copyFailAfter = some (k, m)) :
    tryDownload H env fs = (.error (.copyErr m), none) := by
  obtain ⟨nre, dr, ce, cf⟩ := env
  simp only at h1 h2 h3 h4
  subst h1 h2 h3 h4
  simp [tryDownload]

/-- Witness for C3 at a concrete mid-copy "reset" failure. -/
theorem C3_witness :
    tryDownload H0 envCopyFail none = (.error (.copyErr "reset"), none) :=
  C3_partial_file_removed H0 envCopyFail none [[1, 2], [3]] 1 "reset"
    rfl rfl rfl rfl

/-! ## C4: the bytes on disk are the bytes that were hashed -/

/-- C4: a successful `tryDownload` leaves the destination file holding exactly
the bytes fed to the streaming hash, so hashing the file on disk reproduces
the returned hex digest (for any digest function `H`). -/
theorem C4_hash_roundtrip (H : List Nat → List Nat) (env : AttemptEnv)
    (fs : Option (List Nat)) (h : String)
    (hok : (tryDownload H env fs).1 = .ok h) :
    ∃ bs, (tryDownload H env fs).2 = some bs ∧ h = hexEncode (H bs) := by
  obtain ⟨nre, dr, ce, cf⟩ := env
  cases nre with
  | some m => simp [tryDownload] at hok
  | none =>
    cases dr with
    | error m => simp [tryDownload] at hok
    | ok p =>
      obtain ⟨status, chunks⟩ := p
      by_cases hs : status = 200
      · subst hs
        cases ce with
        | some m => simp [tryDownload] at hok
        | none =>
          cases cf with
          | some q => simp [tryDownload] at hok
          | none =>
            refine ⟨chunks.flatten, by simp [tryDownload], ?_⟩
            simpa [tryDownload] using hok.symm
      · simp [tryDownload, hs] at hok

/-- Witness for C4 at a concrete successful download of `[1,2],[3]`. -/
theorem C4_witness :
    ∃ bs, (tryDownload H0 envBodyOK none).2 = some bs
      ∧ hexEncode (H0 [1, 2, 3]) = hexEncode (H0 bs) :=
  C4_hash_roundtrip H0 envBodyOK none (hexEncode (H0 [1, 2, 3])) rfl

/-! ## C1: the exhausted-retries message understates the attempt count -/

/-! ## Path lemmas for C5 -/

theorem splitSlash_ne_nil (cs : List Char) : splitSlash cs ≠ [] := by
  cases cs with
  | nil => simp [splitSlash]
  | cons c rest =>
    simp only [splitSlash]
    by_cases h : c = '/'
    · simp [h]
    · rcases hs : splitSlash rest with _ | ⟨hd, tl⟩ <;> simp [h, hs]

theorem splitSlash_append (xs ys : List Char) :
    splitSlash (xs ++ '/' :: ys) = splitSlash xs ++ splitSlash ys := by
  induction xs with
  | nil => simp [splitSlash]
  | cons c rest ih =>
    by_cases h : c = '/'
    · simp [splitSlash, h, ih]
    · rcases hs : splitSlash rest with _ | ⟨hd, tl⟩
      · exact absurd hs (splitSlash_ne_nil rest)
      · simp [splitSlash, h, ih, hs]

theorem splitSlash_no_slash (cs : List Char) (h : '/' ∉ cs) : splitSlash cs = [cs] := by
  induction cs with
  | nil => rfl
  | cons c rest ih =>
    have hc : ¬c = '/' := fun e => h (by simp [e])
    have hr : '/' ∉ rest := fun m => h (List.mem_cons_of_mem _ m)
    simp [splitSlash, hc, ih hr]

theorem cleanStep_normal (rooted : Bool) (st : List (List Char)) (n : List Char)
    (h1 : n ≠ []) (h2 : n ≠ ['.']) (h3 : n ≠ ['.', '.']) :
    cleanStep rooted st n = st ++ [n] := by
  simp [cleanStep, h1, h2, h3]

theorem slash_notin_map_replaceChar (l : List Char) : '/' ∉ l.map replaceChar := by
  intro hm
  obtain ⟨a, _, ha⟩ := List.mem_map.mp hm
  exact replaceChar_ne_slash a ha

theorem map_replaceChar_eq_dot (l : List Char) (h : l.map replaceChar = ['.']) :
    l = ['.'] := by
  cases l with
  | nil => simp at h
  | cons a t =>
    cases t with
    | nil =>
      simp only [List.map_cons, List.map_nil, List.cons.injEq, and_true] at h
      rw [replaceChar_eq_dot a h]
    | cons b t2 => simp at h

theorem map_replaceChar_eq_dotdot (l : List Char) (h : l.map replaceChar = ['.', '.']) :
    l = ['.', '.'] := by
  cases l with
  | nil => simp at h
  | cons a t =>
    cases t with
    | nil => simp at h
    | cons b t2 =>
      cases t2 with
      | nil =>
        simp only [List.map_cons, List.map_nil, List.cons.injEq, and_true] at h
        rw [replaceChar_eq_dot a h.1, replaceChar_eq_dot b h.2]
      | cons d t3 => simp at h

theorem intercalate_pair (a b : List Char) :
    List.intercalate ['/'] [a, b] = a ++ '/' :: b := by
  simp [List.intercalate, List.intersperse]

theorem cleanResult_pair (a b : List Char) :
    cleanResult false [a, b] = a ++ '/' :: b := by
  show (if (([] : List Char) ++ List.intercalate ['/'] [a, b]) = [] then ['.']
      else ([] : List Char) ++ List.intercalate ['/'] [a, b]) = a ++ '/' :: b
  rw [intercalate_pair, List.nil_append, if_neg]
  simp

theorem cleanChars_under_downloads (nm : List Char) (h1 : nm ≠ [])
    (hs : '/' ∉ nm) (h2 : nm ≠ ['.']) (h3 : nm ≠ ['.', '.']) :
    cleanChars ("./downloads".data ++ '/' :: nm) = "downloads".data ++ '/' :: nm := by
  have hpre : splitSlash "./downloads".data = [['.'], "downloads".data] := by decide
  have hsplit : splitSlash ("./downloads".data ++ '/' :: nm)
      = [['.'], "downloads".data, nm] := by
    rw [splitSlash_append, splitSlash_no_slash nm hs, hpre]
    rfl
  have hroot : isRooted ("./downloads".data ++ '/' :: nm) = false := rfl
  have e1 : cleanStep false [] ['.'] = [] := by decide
  have e2 : cleanStep false [] "downloads".data = ["downloads".data] := by decide
  have hfold : (splitSlash ("./downloads".data ++ '/' :: nm)).foldl (cleanStep false) []
      = ["downloads".data, nm] := by
    rw [hsplit]
    show cleanStep false (cleanStep false (cleanStep false [] ['.']) "downloads".data) nm
        = ["downloads".data, nm]
    rw [e1, e2, cleanStep_normal false ["downloads".data] nm h1 h2 h3]
    rfl
  show cleanResult (isRooted ("./downloads".data ++ '/' :: nm))
      ((splitSlash ("./downloads".data ++ '/' :: nm)).foldl
        (cleanStep (isRooted ("./downloads".data ++ '/' :: nm))) [])
    = "downloads".data ++ '/' :: nm
  rw [hroot, hfold, cleanResult_pair]

theorem directlyUnder_of_join (b : String) (h1 : b.data ≠ [])
    (hs : '/' ∉ b.data) (h2 : b.data ≠ ['.']) (h3 : b.data ≠ ['.', '.']) :
    isDirectlyUnder "./downloads" (filepathJoin "./downloads" b) := by
  have hbne : ¬b = "" := fun e => h1 (by rw [e])
  have hdne : ¬("./downloads" : String) = "" := by decide
  have hj : filepathJoin "./downloads" b
      = ⟨cleanChars ("./downloads".data ++ '/' :: b.data)⟩ := by
    simp [filepathJoin, hbne, hdne]
  have hcd : cleanChars ("./downloads" : String).data = "downloads".data := by decide
  refine ⟨b.data, h1, hs, ?_⟩
  rw [hj, cleanChars_under_downloads b.data h1 hs h2 h3, hcd]

theorem fallback_sanitized_long (H : List Nat → List Nat) (url : String) :
    16 ≤ (sanitizeFilename (fallbackName H url)).data.length := by
  show 16 ≤ ((fallbackName H url).data.map replaceChar).length
  rw [List.length_map]
  show 16 ≤ (("downloaded_file_" : String) ++ hexEncode (H (urlBytes url))).data.length
  rw [String.data_append, List.length_append]
  have h16 : ("downloaded_file_" : String).data.length = 16 := by decide
  omega

/-! ## C5: filename derivation; a ".." base name escapes the output dir -/

/-- C5 counterexample: for the URL "http://x/.." the base name is "..", which
is neither substituted by the fallback (the code checks only "", "/", ".")
nor altered by `sanitizeFilename` (it contains none of the nine characters);
`filepath.Join` then cleans "./downloads/.." to ".", so the resulting file
path is the parent of the output directory, not directly under it. -/
theorem C5_counterexample_dotdot :
    derivedFilename H0 "./downloads" "http://x/.." = "."
    ∧ ¬isDirectlyUnder "./downloads" (derivedFilename H0 "./downloads" "http://x/..") := by
  have h1 : derivedFilename H0 "./downloads" "http://x/.." = "." := by decide
  refine ⟨h1, ?_⟩
  rw [h1]
  rintro ⟨n, hn, hs, hd⟩
  have e1 : (("." : String).data : List Char) = ['.'] := rfl
  have hcd : cleanChars ("./downloads" : String).data = "downloads".data := by decide
  rw [e1, hcd] at hd
  have hlen := congrArg List.length hd
  simp [List.length_append] at hlen

/-- C5 amended: the destination path is a deterministic function of the URL;
every occurrence of the nine path-unsafe characters in the derived name is
replaced with `_`; the hash-derived fallback name is substituted exactly when
the base name is "", "/" or "." (not for every unsafe name); and the
resulting path is directly under the configured output directory whenever the
derived base name is not ".." — a ".." base name escapes it
(`C5_counterexample_dotdot`). -/
theorem C5_filename_derivation_amended (H : List Nat → List Nat) (url : String)
    (hne : pathBase url ≠ "..") :
    (∀ s : String, ∀ c ∈ (sanitizeFilename s).data, c ∉ badChars)
    ∧ (pathBase url = "" ∨ pathBase url = "/" ∨ pathBase url = "." →
        derivedFilename H "./downloads" url
          = filepathJoin "./downloads" (sanitizeFilename (fallbackName H url)))
    ∧ isDirectlyUnder "./downloads" (derivedFilename H "./downloads" url) := by
  refine ⟨fun s c hc => ?_, fun hf => ?_, ?_⟩
  · obtain ⟨a, _, rfl⟩ := List.mem_map.mp hc
    exact replaceChar_notin_bad a
  · simp only [derivedFilename]
    rw [if_pos hf]
  · by_cases hb : pathBase url = "" ∨ pathBase url = "/" ∨ pathBase url = "."
    · have hdf : derivedFilename H "./downloads" url
          = filepathJoin "./downloads" (sanitizeFilename (fallbackName H url)) := by
        simp only [derivedFilename]
        rw [if_pos hb]
      rw [hdf]
      have hlen := fallback_sanitized_long H url
      refine directlyUnder_of_join _ ?_ ?_ ?_ ?_
      · intro e
        rw [e] at hlen
        exact absurd hlen (by decide)
      · exact slash_notin_map_replaceChar _
      · intro e
        rw [e] at hlen
        exact absurd hlen (by decide)
      · intro e
        rw [e] at hlen
        exact absurd hlen (by decide)
    · have hdf : derivedFilename H "./downloads" url
          = filepathJoin "./downloads" (sanitizeFilename (pathBase url)) := by
        simp only [derivedFilename]
        rw [if_neg hb]
      rw [hdf]
      push_neg at hb
      obtain ⟨hb1, hb2, hb3⟩ := hb
      refine directlyUnder_of_join _ ?_ ?_ ?_ ?_
      · intro e
        have : (pathBase url).data = [] := List.map_eq_nil_iff.mp e
        exact hb1 (String.ext this)
      · exact slash_notin_map_replaceChar _
      · intro e
        exact hb3 (String.ext (map_replaceChar_eq_dot _ e))
      · intro e
        exact hne (String.ext (map_replaceChar_eq_dotdot _ e))

/-- Witness for C5 at the ordinary URL "http://x/a.bin". -/
theorem C5_witness :
    pathBase "http://x/a.bin" ≠ ".."
    ∧ isDirectlyUnder "./downloads" (derivedFilename H0 "./downloads" "http://x/a.bin") :=
  ⟨by decide,
    (C5_filename_derivation_amended H0 "http://x/a.bin" (by decide)).2.2⟩

/-! ## C6: linear, attempt-indexed, cancellable backoff -/

/-- C6: if 0-based attempt `i` (1-based attempt `N = i+1`) fails after a
successful limiter acquisition and attempts remain (`i ≠ maxRetries`), then:
with no cancellation the worker waits `i+1 = N` seconds (the `backoff (i+1)`
event) and continues with the next attempt; if the context fires during that
wait, the call returns immediately with the context's error as the outcome's
error. -/
theorem C6_backoff_wait (H : List Nat → List Nat) (env : DLEnv) (maxR : Nat)
    (url fn : String) (fuel i : Nat) (fs fs2 : Option (List Nat)) (e : GoErr)
    (hlim : env.limiterOk i = true)
    (htry : tryDownload H (env.attempt i) fs = (.error e, fs2))
    (hrem : i ≠ maxR) :
    (env.sleepCancelled i = false →
      downloadFileLoop H env maxR url fn (fuel + 1) i fs =
        ((downloadFileLoop H env maxR url fn fuel (i + 1) fs2).1,
          (downloadFileLoop H env maxR url fn fuel (i + 1) fs2).2.1,
          [.acquire true, .tryAttempt i false, .backoff (i + 1) false]
            ++ (downloadFileLoop H env maxR url fn fuel (i + 1) fs2).2.2))
    ∧ (env.sleepCancelled i = true →
      downloadFileLoop H env maxR url fn (fuel + 1) i fs =
        ({ zeroResult url fn with error := some .ctxErr }, fs2,
          [.acquire true, .tryAttempt i false, .backoff (i + 1) true])) := by
  constructor <;> intro hs <;>
    simp [downloadFileLoop, hlim, htry, hrem, hs]

/-- Witness for C6: attempt 1 fails, the worker waits 1 second then retries;
in the cancelled variant the wait is interrupted and the context error is the
outcome's error. -/
theorem C6_witness :
    (downloadFileLoop H0 envAllFail 1 "u" "downloads/u" 2 0 none =
      ((downloadFileLoop H0 envAllFail 1 "u" "downloads/u" 1 1 none).1,
        (downloadFileLoop H0 envAllFail 1 "u" "downloads/u" 1 1 none).2.1,
        [.acquire true, .tryAttempt 0 false, .backoff 1 false]
          ++ (downloadFileLoop H0 envAllFail 1 "u" "downloads/u" 1 1 none).2.2))
    ∧ (downloadFileLoop H0 envSleepCancel 1 "u" "downloads/u" 2 0 none =
      ({ zeroResult "u" "downloads/u" with error := some .ctxErr }, none,
        [.acquire true, .tryAttempt 0 false, .backoff 1 true])) :=
  ⟨(C6_backoff_wait H0 envAllFail 1 "u" "downloads/u" 1 0 none none
      (.netErr "boom") rfl rfl (by decide)).1 rfl,
    (C6_backoff_wait H0 envSleepCancel 1 "u" "downloads/u" 1 0 none none
      (.netErr "boom") rfl rfl (by decide)).2 rfl⟩

/-! ## C7: one result per URL; successful + failed = total -/

/-- C7: whenever the modelled `main` completes a batch, there is exactly one
`DownloadResult` per input URL and the summary counters satisfy
`successful + failed = total = number of input URLs`. -/
theorem C7_summary_counts (H : List Nat → List Nat) (env : MainEnv)
    (rs : List DownloadResult) (s f t : Nat)
    (h : runMain H env = .completed rs s f t) :
    rs.length = t ∧ s + f = t := by
  obtain ⟨mk, uf, de, f0⟩ := env
  cases mk with
  | some m => simp [runMain, NewDownloader] at h
  | none =>
    cases uf with
    | openErr m => simp [runMain, NewDownloader, readURLs] at h
    | content lines se =>
      cases se with
      | some m => simp [runMain, NewDownloader, readURLs] at h
      | none =>
        by_cases he : parseURLs lines = []
        · simp [runMain, NewDownloader, readURLs, he] at h
        · simp only [runMain, NewDownloader, readURLs, if_neg he] at h
          injection h with h1 h2 h3 h4
          subst h1
          subst h2
          subst h3
          subst h4
          refine ⟨List.length_map _ _, ?_⟩
          rw [countP_success_add, List.length_map]

/-- Witness for C7 on a concrete two-URL batch (both stopped by rate-limiter
cancellation). -/
theorem C7_witness :
    ∃ rs s f t,
      runMain H0 ⟨none, .content ["http://x/a", "http://x/b"] none,
        fun _ => envLimiterCancel, fun _ => none⟩ = .completed rs s f t
      ∧ rs.length = t ∧ s + f = t := by
  refine ⟨_, _, _, _, rfl, ?_⟩
  exact C7_summary_counts H0 ⟨none, .content ["http://x/a", "http://x/b"] none,
    fun _ => envLimiterCancel, fun _ => none⟩ _ _ _ _ rfl

/-! ## C8: rate limiter before each attempt; cancellation there ends the item,
but the summary still counts it as failed -/

/-- C8 counterexample: a URL stopped by cancellation during rate-limiter
acquisition yields an outcome with the wrapped context error — no fetch was
ever attempted — yet `main`'s summary counts it among the failed downloads
(`failed = 1`), so "not treated as a failed download in the reported results"
is false. -/
theorem C8_counterexample_counted_failed :
    runMain H0 mainEnvCancel = .completed [rCancel] 0 1 1
    ∧ rCancel.success = false
    ∧ rCancel.error = some (.wrap "rate limit wait failed" .ctxErr) :=
  ⟨rfl, rfl, rfl⟩

/-- C8 amended: the limiter is acquired before each attempt including the
first (every `tryAttempt` event is directly preceded by a successful
`acquire`); a cancellation during the first acquisition terminates the item
immediately — no attempt event, error wrapping the context error — but in the
reported results this outcome is counted among the failed downloads exactly
like a fetch failure (`failed = 1` for a single-URL batch). -/
theorem C8_cancellation_amended (H : List Nat → List Nat) (env : DLEnv)
    (dir : String) (maxR : Nat) (url : String) (fs : Option (List Nat)) :
    acqBeforeTry (downloadFile H env dir maxR url fs).2.2 = true
    ∧ (env.limiterOk 0 = false →
        downloadFile H env dir maxR url fs =
          ({ zeroResult url (derivedFilename H dir url) with
              error := some (.wrap "rate limit wait failed" .ctxErr) }, fs,
            [.acquire false]))
    ∧ (env.limiterOk 0 = false → trimSpace url = url → url ≠ "" →
        runMain H ⟨none, .content [url] none, fun _ => env, fun _ => fs⟩ =
          .completed [(downloadFile H env "./downloads" 3 url fs).1] 0 1 1) := by
  refine ⟨acqBeforeTry_loop H env maxR url (derivedFilename H dir url) (maxR + 1) 0 fs,
    fun hl => ?_, fun hl ht hu => ?_⟩
  · simp [downloadFile, downloadFileLoop, hl]
  · have hres : (downloadFile H env "./downloads" 3 url fs).1 =
        { zeroResult url (derivedFilename H "./downloads" url) with
            error := some (.wrap "rate limit wait failed" .ctxErr) } := by
      simp [downloadFile, downloadFileLoop, hl]
    simp [runMain, NewDownloader, readURLs, parseURLs, ht, hu, hres,
      List.countP_cons, zeroResult]

/-- Witness for C8 at a concrete cancelled acquisition. -/
theorem C8_witness :
    downloadFile H0 envLimiterCancel "./downloads" 3 "http://x/a" none =
      ({ zeroResult "http://x/a" (derivedFilename H0 "./downloads" "http://x/a") with
          error := some (.wrap "rate limit wait failed" .ctxErr) }, none,
        [.acquire false])
    ∧ runMain H0 ⟨none, .content ["http://x/a"] none,
        fun _ => envLimiterCancel, fun _ => none⟩ =
      .completed [(downloadFile H0 envLimiterCancel "./downloads" 3 "http://x/a" none).1]
        0 1 1 :=
  ⟨(C8_cancellation_amended H0 envLimiterCancel "./downloads" 3 "http://x/a" none).2.1 rfl,
    (C8_cancellation_amended H0 envLimiterCancel "./downloads" 3 "http://x/a" none).2.2
      rfl (by decide) (by decide)⟩

/-! ## C9: setup failures end the run before any worker; but an empty URL
list exits with status 0, not a failure status -/

/-- C9 counterexample: with an URL file containing only blank lines, the
modelled `main` takes the empty-list branch and terminates with exit status 0
(a plain `return`), not the failure status the claim requires. -/
theorem C9_counterexample_empty_exit0 :
    runMain H0 mainEnvEmpty = .emptyList
    ∧ exitCode (runMain H0 mainEnvEmpty) = 0 :=
  ⟨rfl, rfl⟩

/-- C9 amended: if creating the output directory fails, `main` reports the
wrapped error and exits with status 1 before any download; if the input URL
list is empty, `main` reports "No URLs to download" and terminates before any
worker starts, but with exit status 0 (success), not a failure status. -/
theorem C9_setup_errors_amended (H : List Nat → List Nat) (env : MainEnv) :
    (∀ m, env.mkdirErr = some m →
      runMain H env = .initFailure
          ("Failed to initialize downloader: " ++ ("failed to create output directory: " ++ m))
        ∧ exitCode (runMain H env) = 1)
    ∧ (∀ lines, env.mkdirErr = none → env.urlFile = .content lines none →
        parseURLs lines = [] →
        runMain H env = .emptyList ∧ exitCode (runMain H env) = 0) := by
  obtain ⟨mk, uf, de, f0⟩ := env
  constructor
  · intro m hm
    simp only at hm
    subst hm
    exact ⟨rfl, rfl⟩
  · intro lines hm hf he
    simp only at hm hf
    subst hm hf
    constructor <;> simp [runMain, NewDownloader, readURLs, he, exitCode]

/-- Witness for C9: a failing `os.MkdirAll` exits with status 1; a blank URL
file ends the run with status 0. -/
theorem C9_witness :
    (runMain H0 mainEnvMkdir =
        .initFailure "Failed to initialize downloader: failed to create output directory: disk full"
      ∧ exitCode (runMain H0 mainEnvMkdir) = 1)
    ∧ (runMain H0 mainEnvEmpty2 = .emptyList
      ∧ exitCode (runMain H0 mainEnvEmpty2) = 0) :=
  ⟨(C9_setup_errors_amended H0 mainEnvMkdir).1 "disk full" rfl,
    (C9_setup_errors_amended H0 mainEnvEmpty2).2 ["\t"] rfl rfl (by decide)⟩

/-- C1: with `maxRetries = 1` and every attempt failing, `downloadFile` makes
2 attempts (`maxRetries + 1`, the two `tryAttempt` events) but the returned
error wraps the last error with the message "failed after 1 attempts" — it
names `maxRetries`, not the attempt count `maxRetries + 1` required by the
specification. -/
theorem C1_retries_exhausted_offbyone :
    downloadFile H0 envAllFail "downloads" 1 "u" none =
      (⟨"u", "downloads/u", false,
          some (.wrap "failed after 1 attempts" (.netErr "boom")), ""⟩,
        none,
        [.acquire true, .tryAttempt 0 false, .backoff 1 false,
          .acquire true, .tryAttempt 1 false])
    ∧ ((downloadFile H0 envAllFail "downloads" 1 "u" none).2.2.countP isTryEv) = 2 :=
  ⟨rfl, rfl⟩

end Yad
